import Mathlib

/-!
Verification of the Hangman game state machine, state codec and session
controller from `vumi/demos/hangman.py`.

Modelling conventions:
* Python unicode strings are modelled as `List Char`; the UTF-8
  encode/decode pair used by `state`/`from_state` is the identity on the
  character sequence and is therefore elided.
* `HangmanGame.guesses` (a Python `set` of single characters) is a
  `Finset Char`; Python `sorted` on it is its ascending listing
  (`sortChars`).
* `str.lower()` is modelled character-wise on the ASCII range, which is
  exact for every character occurring in the game's protocol.
* The Redis store is a function from keys to optional stored byte
  strings; the HTTP word fetch is passed in as the fetched text.  The
  key-derivation helpers (`normalize_msisdn`, `safe_routing_key`) live in
  `vumi.utils`, outside this file's sources, so `resume_session` is
  modelled over an already-computed key.
-/

namespace Hangman

/-- Characters of a Python string literal. -/
def strL (s : String) : List Char := s.toList

/-- Character-wise `str.lower()` (exact on ASCII). -/
def pyLower (c : Char) : Char :=
  if 65 ≤ c.toNat ∧ c.toNat ≤ 90 then Char.ofNat (c.toNat + 32) else c

/-- Python 2's `string.lowercase`. -/
def lowercase : List Char := strL "abcdefghijklmnopqrstuvwxyz"

/-- Characters stripped by Python's `str.strip()` (ASCII whitespace). -/
def isPySpace (c : Char) : Bool :=
  c == ' ' || c == '\t' || c == '\n' || c == '\r' ||
    c.toNat == 11 || c.toNat == 12

/-- Python `message.strip()`: drop whitespace from both ends. -/
def pyStrip (l : List Char) : List Char :=
  ((l.dropWhile isPySpace).reverse.dropWhile isPySpace).reverse

/-- The `exit_code` values `NOT_DONE, DONE, DONE_WANTS_NEW = range(3)`. -/
inductive ExitCode
  | NOT_DONE
  | DONE
  | DONE_WANTS_NEW
deriving DecidableEq, Repr

/-- The fields of a `HangmanGame` instance. -/
structure HangmanGame where
  word : List Char
  guesses : Finset Char
  msg : List Char
  exit_code : ExitCode
deriving DecidableEq

/-- `HangmanGame.__init__` with the default `guesses`/`msg` arguments:
`word` stored as given, `guesses = set()`, `msg = "New game!"`,
`exit_code = NOT_DONE`.  The constructor performs no validation. -/
def mkGame (word : List Char) : HangmanGame :=
  { word := word, guesses := ∅, msg := strL "New game!",
    exit_code := ExitCode.NOT_DONE }

/-- `HangmanGame.won`: `all(x in self.guesses for x in self.word)`. -/
def won (g : HangmanGame) : Bool :=
  g.word.all (fun x => decide (x ∈ g.guesses))

/-- `HangmanGame.victory_message`.  Python compares
`guesses <= uniques * factor` with the float factors
`1, 1.5, 2, 3, 4`; both counts are bounded by the number of distinct
characters (`< 2^21`), far below the range where doubles lose exactness,
so each comparison is modelled by the equivalent exact integer
comparison (`guesses <= 1.5 * uniques` as `2 * guesses <= 3 * uniques`). -/
def victory_message (g : HangmanGame) : List Char :=
  let uniques : ℕ := g.word.toFinset.card
  let guesses : ℕ := g.guesses.card
  if guesses ≤ uniques * 1 then strL "Flawless victory!"
  else if 2 * guesses ≤ 3 * uniques then strL "Epic victory!"
  else if guesses ≤ uniques * 2 then strL "Standard victory!"
  else if guesses ≤ uniques * 3 then strL "Sub-par victory!"
  else if guesses ≤ uniques * 4 then strL "Random victory!"
  else strL "Button mashing!"

/-- The victory-message selection as the spec words it: walk the
ascending thresholds `{1, 1.5, 2, 3, 4} × uniques` in exact rational
arithmetic and return the message of the first threshold `guesses` does
not exceed. -/
def specVictoryMessage (uniques guesses : ℕ) : List Char :=
  if (guesses : ℚ) ≤ (uniques : ℚ) * 1 then strL "Flawless victory!"
  else if (guesses : ℚ) ≤ (uniques : ℚ) * (3 / 2) then strL "Epic victory!"
  else if (guesses : ℚ) ≤ (uniques : ℚ) * 2 then strL "Standard victory!"
  else if (guesses : ℚ) ≤ (uniques : ℚ) * 3 then strL "Sub-par victory!"
  else if (guesses : ℚ) ≤ (uniques : ℚ) * 4 then strL "Random victory!"
  else strL "Button mashing!"

/-- Message for a repeated guess, with the guessed letter spliced in. -/
def alreadyGuessedMsg (c : Char) : List Char :=
  strL "You've already guessed '" ++ [c] ++ strL "'."

/-- Message for a fresh guess that occurs in the word. -/
def containsMsg (c : Char) : List Char :=
  strL "Word contains at least one '" ++ [c] ++ strL "'! :D"

/-- Message for a fresh guess that does not occur in the word. -/
def containsNoMsg (c : Char) : List Char :=
  strL "Word contains no '" ++ [c] ++ strL "'. :("

/-- `HangmanGame.event`: lowercase the input, run the `elif` chain
(empty / too long / `"0"` / already won / not a letter / repeat guess /
fresh guess), then unconditionally overwrite `msg` with the victory
message whenever the game is now won.  `exit_code` is never read. -/
def event (g : HangmanGame) (message : List Char) : HangmanGame :=
  let m := message.map pyLower
  let g1 :=
    match m with
    | [] => { g with msg := strL "Some input required please." }
    | [c] =>
        if c = '0' then
          { g with exit_code := ExitCode.DONE, msg := strL "Game ended." }
        else if won g then
          { g with exit_code := ExitCode.DONE_WANTS_NEW }
        else if ¬ ([c] <:+: lowercase) then
          { g with msg := strL "Letters of the alphabet only please." }
        else if c ∈ g.guesses then
          { g with msg := alreadyGuessedMsg c }
        else
          { g with guesses := insert c g.guesses,
                   msg := if c ∈ g.word then containsMsg c
                          else containsNoMsg c }
    | _ :: _ :: _ => { g with msg := strL "Single characters only please." }
  if won g1 then { g1 with msg := victory_message g1 } else g1

/-- Python `sorted(...)` on a set of characters: the set's elements in
ascending order.  (Realised with a structurally recursive insertion
sort, which is kernel-computable; any correct sort of a duplicate-free
collection yields this same list.) -/
def sortChars (s : Finset Char) : List Char :=
  Quot.liftOn s.val (fun l => List.insertionSort (fun a b => a ≤ b) l)
    (fun a b h =>
      List.eq_of_perm_of_sorted
        ((List.perm_insertionSort _ a).trans
          (h.trans (List.perm_insertionSort _ b).symm))
        (List.sorted_insertionSort _ a) (List.sorted_insertionSort _ b))

/-- `HangmanGame.state`: `"%s:%s:%s" % (word, sorted-guesses, msg)`. -/
def state (g : HangmanGame) : List Char :=
  g.word ++ ':' :: (sortChars g.guesses ++ ':' :: g.msg)

/-- Split a list at the first `':'`: `none` when there is none. -/
def splitOnce (l : List Char) : Option (List Char × List Char) :=
  match l with
  | [] => none
  | c :: rest =>
      if c = ':' then some ([], rest)
      else (splitOnce rest).map (fun p => (c :: p.1, p.2))

/-- `HangmanGame.from_state`: `word, guesses, msg = state.split(":", 2)`
(which raises on fewer than three parts, modelled as `none`), with
`guesses = set(guesses)` and a fresh `NOT_DONE` exit code. -/
def from_state (st : List Char) : Option HangmanGame :=
  match splitOnce st with
  | none => none
  | some (word, rest) =>
      match splitOnce rest with
      | none => none
      | some (guesses, msg) =>
          some { word := word, guesses := guesses.toFinset, msg := msg,
                 exit_code := ExitCode.NOT_DONE }

/-- `HangmanGame.draw_board`: `"Adieu!"` once the exit code is set,
otherwise the `UI_TEMPLATE` filled in. -/
def draw_board (g : HangmanGame) : List Char :=
  if g.exit_code ≠ ExitCode.NOT_DONE then strL "Adieu!"
  else
    let word := g.word.map (fun x => if x ∈ g.guesses then x else '_')
    let guesses := sortChars g.guesses
    let prompt :=
      if won g then strL "Enter anything to start a new game"
      else strL "Enter next guess"
    g.msg ++ strL "\nWord: " ++ word ++
      strL "\nLetters guessed so far: " ++ guesses ++ strL "\n" ++
      prompt ++ strL " (0 to quit):\n"

/-- An outbound reply: its text, and whether the worker used `end`
(terminating the session) rather than `reply`. -/
structure Reply where
  text : List Char
  terminal : Bool

/-- `HangmanWorker.new_game` applied to the text fetched from the word
URL: `word.strip().lower()` then `HangmanGame(word)`. -/
def new_game (fetched : List Char) : HangmanGame :=
  mkGame ((pyStrip fetched).map pyLower)

/-- `HangmanWorker.resume_session` over an abstract store.  `fetched` is
the word the random-word URL would return for the `DONE_WANTS_NEW`
branch.  Returns the updated store and the reply; `none` models the
uncaught exception when the key is absent or the stored state corrupt. -/
def resume_session (fetched : List Char)
    (store : List Char → Option (List Char)) (key : List Char)
    (message : List Char) :
    Option ((List Char → Option (List Char)) × Reply) :=
  match store key with
  | none => none
  | some st =>
      match from_state st with
      | none => none
      | some game =>
          let g := event game (pyStrip message)
          if g.exit_code = ExitCode.DONE then
            some (fun k => if k = key then none else store k,
                  { text := draw_board g, terminal := true })
          else if g.exit_code = ExitCode.DONE_WANTS_NEW then
            let ng := new_game fetched
            some (fun k => if k = key then some (state ng) else store k,
                  { text := draw_board ng, terminal := false })
          else
            some (fun k => if k = key then some (state g) else store k,
                  { text := draw_board g, terminal := false })

/-- Modelled from the spec: the fallible constructor of §4.1, "Fails if
`word` is empty or contains characters outside the lowercase alphabet".
The source constructor `HangmanGame.__init__` has no such check; this
definition exists only to state that refinement claim. -/
def new_spec (word : List Char) : Option HangmanGame :=
  if word ≠ [] ∧ ∀ c ∈ word, c ∈ lowercase then some (mkGame word)
  else none

/-- A game that has just been won: word `"a"`, `'a'` guessed. -/
def gWonA : HangmanGame := event (mkGame (strL "a")) (strL "a")

/-- `gWonA` after the quit input `"0"`: exit code `DONE`. -/
def gQuitA : HangmanGame := event gWonA (strL "0")

/-- A game of word `"ab"` with only `'a'` guessed: one letter short. -/
def gAB : HangmanGame := event (mkGame (strL "ab")) (strL "a")

/-- A sample game whose message contains the field delimiter. -/
def gSample : HangmanGame :=
  { word := strL "cat", guesses := {'a', 't'}, msg := strL "a:b",
    exit_code := ExitCode.NOT_DONE }

/-- A one-entry store holding the fresh game of word `"ab"`. -/
def demoStore : List Char → Option (List Char) := fun k =>
  if k = strL "k1" then some (state (mkGame (strL "ab"))) else none

/-- Every lowercase letter is fixed by `pyLower` and differs from `'0'`. -/
lemma mem_lowercase_spec : ∀ c ∈ lowercase, pyLower c = c ∧ c ≠ '0' := by
  decide

/-- A singleton infix means its element is a member. -/
lemma mem_of_singleton_seg {c : Char} {l : List Char}
    (h : [c] <:+: l) : c ∈ l :=
  h.sublist.subset (List.mem_singleton_self c)

/-- The final victory-message overwrite never touches the exit code. -/
lemma exit_ite_won (g1 : HangmanGame) :
    (if won g1 then { g1 with msg := victory_message g1 }
     else g1).exit_code = g1.exit_code := by
  split <;> rfl

/-- The final victory-message overwrite never touches the guesses. -/
lemma guesses_ite_won (g1 : HangmanGame) :
    (if won g1 then { g1 with msg := victory_message g1 }
     else g1).guesses = g1.guesses := by
  split <;> rfl

/-- `won` only reads `word` and `guesses`. -/
lemma won_set_msg_exit (g : HangmanGame) (m : List Char) (e : ExitCode) :
    won { g with msg := m, exit_code := e } = won g := rfl

/-- `victory_message` only reads `word` and `guesses`. -/
lemma victory_message_set_msg_exit (g : HangmanGame) (m : List Char)
    (e : ExitCode) :
    victory_message { g with msg := m, exit_code := e } =
      victory_message g := rfl

/-- A single-character input that is not `"0"` on an already-won game:
branch 5 fires, the exit code becomes `DONE_WANTS_NEW` and the guesses
are untouched. -/
lemma event_won_single (g : HangmanGame) (m : List Char) (c : Char)
    (hc : m.map pyLower = [c]) (h0 : c ≠ '0') (hw : won g = true) :
    (event g m).exit_code = ExitCode.DONE_WANTS_NEW ∧
      (event g m).guesses = g.guesses := by
  simp only [event, hc]
  rw [if_neg h0, if_pos hw]
  constructor
  · rw [exit_ite_won]
  · rw [guesses_ite_won]

/-- Quitting: `event g "0"` reduces to the `DONE` record, then the
final victory-overwrite step. -/
lemma event_quit (g : HangmanGame) :
    event g (strL "0") =
      (if won { g with exit_code := ExitCode.DONE,
                       msg := strL "Game ended." } then
        { g with exit_code := ExitCode.DONE,
                 msg := victory_message
                   { g with exit_code := ExitCode.DONE,
                            msg := strL "Game ended." } }
       else { g with exit_code := ExitCode.DONE,
                     msg := strL "Game ended." }) := rfl

/-- The exit code after any event is the old one, `DONE`, or
`DONE_WANTS_NEW`. -/
lemma event_exit_cases (g : HangmanGame) (m : List Char) :
    (event g m).exit_code = g.exit_code ∨
      (event g m).exit_code = ExitCode.DONE ∨
      (event g m).exit_code = ExitCode.DONE_WANTS_NEW := by
  rcases hm : m.map pyLower with _ | ⟨c, _ | ⟨d, t⟩⟩ <;>
    simp only [event, hm] <;>
    split_ifs <;>
    first
      | exact Or.inl rfl
      | exact Or.inr (Or.inl rfl)
      | exact Or.inr (Or.inr rfl)

/-- Splitting a list whose head part is delimiter-free finds exactly
that part. -/
lemma splitOnce_append (a r : List Char) (h : ':' ∉ a) :
    splitOnce (a ++ ':' :: r) = some (a, r) := by
  induction a with
  | nil => simp [splitOnce]
  | cons c t ih =>
      have hc : c ≠ ':' := fun e => h (e ▸ List.mem_cons_self c t)
      have ht : ':' ∉ t := fun m => h (List.mem_cons_of_mem _ m)
      simp [splitOnce, hc, ih ht]

/-- `splitOnce` returns `none` exactly on delimiter-free lists. -/
lemma splitOnce_none_iff (l : List Char) :
    splitOnce l = none ↔ ':' ∉ l := by
  induction l with
  | nil => simp [splitOnce]
  | cons c t ih =>
      by_cases hc : c = ':'
      · simp [splitOnce, hc]
      · simp only [splitOnce, hc, if_false, List.mem_cons]
        simp [ih]
        exact fun _ e => hc e.symm

/-- A successful `splitOnce` consumes exactly one delimiter. -/
lemma splitOnce_some_count :
    ∀ (l a r : List Char), splitOnce l = some (a, r) →
      l.count ':' = a.count ':' + r.count ':' + 1 := by
  intro l
  induction l with
  | nil => intro a r h; simp [splitOnce] at h
  | cons c t ih =>
      intro a r h
      rw [splitOnce] at h
      split_ifs at h with hc
      · injection h with h'
        injection h' with h1 h2
        subst h1; subst h2; subst hc
        simp [List.count_cons]
      · cases hsp : splitOnce t with
        | none => rw [hsp] at h; simp at h
        | some p =>
            rw [hsp] at h
            simp only [Option.map_some'] at h
            injection h with h'
            injection h' with h1 h2
            subst h1; subst h2
            have := ih p.1 p.2 (by rw [hsp])
            simp [List.count_cons, hc, this]

/-- Membership in the sorted listing of a character set. -/
lemma mem_sortChars (s : Finset Char) (c : Char) :
    c ∈ sortChars s ↔ c ∈ s := by
  rcases s with ⟨val, nd⟩
  revert nd
  induction val using Quot.ind with
  | _ l =>
      intro nd
      show c ∈ List.insertionSort (fun a b => a ≤ b) l ↔ _
      rw [(List.perm_insertionSort (fun a b => a ≤ b) l).mem_iff]
      exact Iff.rfl

/-- Collecting the sorted listing back into a set is the identity. -/
lemma toFinset_sortChars (s : Finset Char) :
    (sortChars s).toFinset = s := by
  ext c
  rw [List.mem_toFinset, mem_sortChars]

/-- `draw_board` renders the fixed terminal text once the exit code is
set. -/
lemma draw_board_done (g : HangmanGame)
    (h : g.exit_code ≠ ExitCode.NOT_DONE) :
    draw_board g = strL "Adieu!" := by
  unfold draw_board
  rw [if_pos h]

/-- C1 (counterexample): on the already-won game `gWonA` the empty
input hits branch 2, so the exit code stays `NOT_DONE` instead of
becoming `DONE_WANTS_NEW` as the claim asserts for every input. -/
theorem claim1_counterexample :
    won gWonA = true ∧ gWonA.exit_code = ExitCode.NOT_DONE ∧
      ¬ (event gWonA (strL "")).exit_code = ExitCode.DONE_WANTS_NEW := by
  decide

/-- C1 (amended): on an already-won in-progress game, any input whose
lowercased form is a single character other than `'0'` sets the exit
code to `DONE_WANTS_NEW`; empty, multi-character and `"0"` inputs do
not reach branch 5. -/
theorem claim1_theorem (g : HangmanGame) (m : List Char)
    (hw : won g = true) (hx : g.exit_code = ExitCode.NOT_DONE)
    (hlen : (m.map pyLower).length = 1)
    (hne : m.map pyLower ≠ ['0']) :
    (event g m).exit_code = ExitCode.DONE_WANTS_NEW := by
  obtain ⟨c, hc⟩ := List.length_eq_one.mp hlen
  have h0 : c ≠ '0' := fun e => hne (by rw [hc, e])
  exact (event_won_single g m c hc h0 hw).1

/-- C1 (witness): the amended statement at `gWonA` with input `"b"`. -/
theorem claim1_witness :
    won gWonA = true ∧ gWonA.exit_code = ExitCode.NOT_DONE ∧
      ((strL "b").map pyLower).length = 1 ∧
      (strL "b").map pyLower ≠ ['0'] ∧
      (event gWonA (strL "b")).exit_code = ExitCode.DONE_WANTS_NEW :=
  ⟨by decide, by decide, by decide, by decide,
    claim1_theorem gWonA (strL "b") (by decide) (by decide) (by decide)
      (by decide)⟩

/-- C2 (counterexample): quitting the already-won game `gWonA` sets
`exit_code = DONE` but the final victory overwrite replaces
`"Game ended."` with `"Flawless victory!"`, refuting the claimed
message for the already-won case. -/
theorem claim2_counterexample :
    gWonA.exit_code = ExitCode.NOT_DONE ∧
      (event gWonA (strL "0")).exit_code = ExitCode.DONE ∧
      (event gWonA (strL "0")).msg = strL "Flawless victory!" ∧
      (event gWonA (strL "0")).msg ≠ strL "Game ended." := by
  decide

/-- C2 (amended): input `"0"` from any in-progress state sets
`exit_code = DONE`; the message is `"Game ended."` unless the game was
already won, in which case the victory message overwrites it. -/
theorem claim2_theorem (g : HangmanGame)
    (hx : g.exit_code = ExitCode.NOT_DONE) :
    (event g (strL "0")).exit_code = ExitCode.DONE ∧
      (event g (strL "0")).msg =
        (if won g then victory_message g else strL "Game ended.") := by
  rw [event_quit, won_set_msg_exit]
  cases hwon : won g with
  | true =>
      rw [if_pos rfl]
      exact ⟨rfl, by rw [victory_message_set_msg_exit, if_pos rfl]⟩
  | false =>
      rw [if_neg (by simp)]
      exact ⟨rfl, rfl⟩

/-- C2 (witness): the amended statement at the unfinished game `gAB`. -/
theorem claim2_witness :
    gAB.exit_code = ExitCode.NOT_DONE ∧
      ((event gAB (strL "0")).exit_code = ExitCode.DONE ∧
        (event gAB (strL "0")).msg =
          (if won gAB then victory_message gAB
           else strL "Game ended.")) :=
  ⟨by decide, claim2_theorem gAB (by decide)⟩

/-- C3 (counterexample): `event` never reads `exit_code`, so the
terminal game `gQuitA` (exit code `DONE`) moves to `DONE_WANTS_NEW`
when a letter arrives while the win predicate holds: a non-`InProgress`
outcome is not terminal for the `HangmanGame` instance itself. -/
theorem claim3_counterexample :
    gQuitA.exit_code = ExitCode.DONE ∧
      (event gQuitA (strL "b")).exit_code = ExitCode.DONE_WANTS_NEW := by
  decide

/-- C3 (amended): once the exit code has left `NOT_DONE` no event ever
returns it to `NOT_DONE` (though it can move between the two terminal
values). -/
theorem claim3_theorem (g : HangmanGame) (m : List Char)
    (h : g.exit_code ≠ ExitCode.NOT_DONE) :
    (event g m).exit_code ≠ ExitCode.NOT_DONE := by
  rcases event_exit_cases g m with h1 | h1 | h1 <;> rw [h1]
  · exact h
  · decide
  · decide

/-- C3 (witness): the amended statement at `gQuitA` with input `"b"`. -/
theorem claim3_witness :
    gQuitA.exit_code ≠ ExitCode.NOT_DONE ∧
      (event gQuitA (strL "b")).exit_code ≠ ExitCode.NOT_DONE :=
  ⟨by decide, claim3_theorem gQuitA (strL "b") (by decide)⟩

/-- C4: decoding the encoding of a game whose word and guesses are
lowercase letters reproduces the word, the guess set and the message
exactly (delimiters in the message included), with the exit code reset
to `NOT_DONE`. -/
theorem claim4_theorem (g : HangmanGame)
    (hword : ∀ c ∈ g.word, c ∈ lowercase)
    (hguess : ∀ c ∈ g.guesses, c ∈ lowercase) :
    from_state (state g) =
      some { word := g.word, guesses := g.guesses, msg := g.msg,
             exit_code := ExitCode.NOT_DONE } := by
  have hw : ':' ∉ g.word := fun h => absurd (hword ':' h) (by decide)
  have hs : ':' ∉ sortChars g.guesses := fun h =>
    absurd (hguess ':' ((mem_sortChars g.guesses ':').mp h)) (by decide)
  have h1 : splitOnce (state g) =
      some (g.word, sortChars g.guesses ++ ':' :: g.msg) :=
    splitOnce_append g.word _ hw
  have h2 : splitOnce (sortChars g.guesses ++ ':' :: g.msg) =
      some (sortChars g.guesses, g.msg) :=
    splitOnce_append _ _ hs
  simp only [from_state, h1, h2, toFinset_sortChars]

/-- C4 (witness): the round trip at a concrete game whose message
contains the delimiter. -/
theorem claim4_witness :
    (∀ c ∈ gSample.word, c ∈ lowercase) ∧
      (∀ c ∈ gSample.guesses, c ∈ lowercase) ∧
      from_state (state gSample) =
        some { word := gSample.word, guesses := gSample.guesses,
               msg := gSample.msg, exit_code := ExitCode.NOT_DONE } :=
  ⟨by decide, by decide, claim4_theorem gSample (by decide) (by decide)⟩

/-- C5: any stored byte string with fewer than two delimiters (so its
split yields fewer than three parts; in particular one with no
delimiter at all) makes `from_state` fail rather than produce a game. -/
theorem claim5_theorem (bs : List Char) (h : bs.count ':' < 2) :
    from_state bs = none := by
  cases h1 : splitOnce bs with
  | none => simp only [from_state, h1]
  | some p =>
      obtain ⟨a, r⟩ := p
      have hcount := splitOnce_some_count bs a r h1
      have hr : r.count ':' = 0 := by omega
      have hrn : splitOnce r = none :=
        (splitOnce_none_iff r).mpr (List.count_eq_zero.mp hr)
      simp only [from_state, h1, hrn]

/-- C5 (witness): a delimiter-free record is rejected. -/
theorem claim5_witness :
    (strL "abc").count ':' < 2 ∧ from_state (strL "abc") = none :=
  ⟨by decide, claim5_theorem (strL "abc") (by decide)⟩

/-- C6 (counterexample): the constructor performs no validation: with
the empty word (which the claim says must fail, and which the
spec-modelled `new_spec` rejects) it succeeds and returns an ordinary
in-progress game. -/
theorem claim6_counterexample :
    new_spec (strL "") = none ∧
      mkGame (strL "") =
        { word := [], guesses := ∅, msg := strL "New game!",
          exit_code := ExitCode.NOT_DONE } := by
  decide

/-- C6 (amended): construction never fails: for every word, valid or
not, it yields a game with empty guesses, message `"New game!"` and
exit code `NOT_DONE`. -/
theorem claim6_theorem (w : List Char) :
    mkGame w = { word := w, guesses := ∅, msg := strL "New game!",
                 exit_code := ExitCode.NOT_DONE } := rfl

/-- C7: the victory message matches the first of the spec thresholds
`{1, 1.5, 2, 3, 4} × uniques` (ties by `<=`) that `guesses` does not
exceed, and in particular `"cat"` guessed as `{c,a,t}` gives
`"Flawless victory!"` while `{c,a,t,x,y}` gives `"Standard victory!"`. -/
theorem claim7_theorem :
    (∀ g : HangmanGame,
      victory_message g =
        specVictoryMessage g.word.toFinset.card g.guesses.card) ∧
      victory_message
        { word := strL "cat", guesses := {'c', 'a', 't'},
          msg := [], exit_code := ExitCode.NOT_DONE } =
        strL "Flawless victory!" ∧
      victory_message
        { word := strL "cat", guesses := {'c', 'a', 't', 'x', 'y'},
          msg := [], exit_code := ExitCode.NOT_DONE } =
        strL "Standard victory!" := by
  refine ⟨fun g => ?_, by decide, by decide⟩
  unfold victory_message specVictoryMessage
  have e1 : ∀ u n : ℕ, ((n : ℚ) ≤ (u : ℚ) * 1) ↔ n ≤ u * 1 := by
    intro u n; rw [mul_one, mul_one, Nat.cast_le]
  have e2 : ∀ u n : ℕ, ((n : ℚ) ≤ (u : ℚ) * (3 / 2)) ↔
      2 * n ≤ 3 * u := by
    intro u n
    rw [show ((2 * n : ℕ) ≤ (3 * u : ℕ)) ↔
        (((2 * n : ℕ) : ℚ) ≤ ((3 * u : ℕ) : ℚ)) from (Nat.cast_le).symm]
    push_cast
    constructor <;> intro h <;> linarith
  have e3 : ∀ u n : ℕ, ((n : ℚ) ≤ (u : ℚ) * 2) ↔ n ≤ u * 2 := by
    intro u n
    rw [show ((u : ℚ) * 2) = ((u * 2 : ℕ) : ℚ) by push_cast; ring,
      Nat.cast_le]
  have e4 : ∀ u n : ℕ, ((n : ℚ) ≤ (u : ℚ) * 3) ↔ n ≤ u * 3 := by
    intro u n
    rw [show ((u : ℚ) * 3) = ((u * 3 : ℕ) : ℚ) by push_cast; ring,
      Nat.cast_le]
  have e5 : ∀ u n : ℕ, ((n : ℚ) ≤ (u : ℚ) * 4) ↔ n ≤ u * 4 := by
    intro u n
    rw [show ((u : ℚ) * 4) = ((u * 4 : ℕ) : ℚ) by push_cast; ring,
      Nat.cast_le]
  simp only [e1, e2, e3, e4, e5]

/-- C8: a fresh single lowercase letter that completes the word leaves
the exit code at `NOT_DONE` and overwrites the message with the victory
message: the completing turn itself never changes the outcome. -/
theorem claim8_theorem (g : HangmanGame) (c : Char)
    (hx : g.exit_code = ExitCode.NOT_DONE)
    (hnw : won g = false)
    (hlc : [c] <:+: lowercase)
    (hwin : won { g with guesses := insert c g.guesses } = true) :
    (event g [c]).exit_code = ExitCode.NOT_DONE ∧
      (event g [c]).msg = victory_message (event g [c]) := by
  obtain ⟨hfix, h0⟩ := mem_lowercase_spec c (mem_of_singleton_seg hlc)
  have hcg : c ∉ g.guesses := by
    intro hmem
    rw [Finset.insert_eq_self.mpr hmem] at hwin
    have hwin' : won g = true := hwin
    rw [hnw] at hwin'
    exact Bool.noConfusion hwin'
  have hmap : ([c] : List Char).map pyLower = [c] := by
    rw [List.map_cons, List.map_nil, hfix]
  have hnw' : ¬ (won g = true) := by
    rw [hnw]; exact Bool.false_ne_true
  have hwin2 : won { g with
      guesses := insert c g.guesses,
      msg := if c ∈ g.word then containsMsg c else containsNoMsg c } =
      true := hwin
  simp only [event, hmap]
  rw [if_neg h0, if_neg hnw', if_neg (not_not_intro hlc), if_neg hcg,
    if_pos hwin2]
  exact ⟨hx, rfl⟩

/-- C8 (witness): the completing guess `'b'` on the game `gAB` of word
`"ab"` with `'a'` already guessed. -/
theorem claim8_witness :
    gAB.exit_code = ExitCode.NOT_DONE ∧ won gAB = false ∧
      (['b'] <:+: lowercase) ∧
      won { gAB with guesses := insert 'b' gAB.guesses } = true ∧
      ((event gAB ['b']).exit_code = ExitCode.NOT_DONE ∧
        (event gAB ['b']).msg = victory_message (event gAB ['b'])) :=
  ⟨by decide, by decide, by decide, by decide,
    claim8_theorem gAB 'b' (by decide) (by decide) (by decide)
      (by decide)⟩

/-- C9: when an event leaves the loaded game `DONE`, `resume_session`
deletes the stored record under the key, replies with exactly
`"Adieu!"` (the terminal render) and terminates the session. -/
theorem claim9_theorem (fetched : List Char)
    (store : List Char → Option (List Char)) (key : List Char)
    (message st : List Char) (game : HangmanGame)
    (h1 : store key = some st)
    (h2 : from_state st = some game)
    (h3 : (event game (pyStrip message)).exit_code = ExitCode.DONE) :
    resume_session fetched store key message =
      some (fun k => if k = key then none else store k,
            { text := strL "Adieu!", terminal := true }) := by
  simp only [resume_session, h1, h2]
  rw [if_pos h3,
    draw_board_done _ (by rw [h3]; exact fun e => ExitCode.noConfusion e)]

/-- C9 (witness): quitting the stored game of word `"ab"` under key
`"k1"` deletes the record and sends the terminal `"Adieu!"` reply. -/
theorem claim9_witness :
    resume_session (strL "word") demoStore (strL "k1") (strL "0") =
      some (fun k => if k = strL "k1" then none else demoStore k,
            { text := strL "Adieu!", terminal := true }) :=
  claim9_theorem (strL "word") demoStore (strL "k1") (strL "0")
    (state (mkGame (strL "ab"))) (mkGame (strL "ab"))
    (by decide) (by decide) (by decide)

/-- C10: with the empty word the game is won from the start:
construction succeeds, the board shows the already-won prompt, and the
first single lowercase letter immediately yields `DONE_WANTS_NEW`
without entering the guess set. -/
theorem claim10_theorem :
    mkGame (strL "") =
      { word := [], guesses := ∅, msg := strL "New game!",
        exit_code := ExitCode.NOT_DONE } ∧
    won (mkGame (strL "")) = true ∧
    (strL "Enter anything to start a new game") <:+:
      draw_board (mkGame (strL "")) ∧
    ∀ c : Char, [c] <:+: lowercase →
      (event (mkGame (strL "")) [c]).exit_code =
          ExitCode.DONE_WANTS_NEW ∧
        (event (mkGame (strL "")) [c]).guesses = ∅ := by
  refine ⟨by decide, by decide, by decide, fun c hc => ?_⟩
  obtain ⟨hfix, h0⟩ := mem_lowercase_spec c (mem_of_singleton_seg hc)
  have hmap : ([c] : List Char).map pyLower = [c] := by
    rw [List.map_cons, List.map_nil, hfix]
  exact event_won_single (mkGame (strL "")) [c] c hmap h0 (by decide)

/-- C10 (witness): the final conjunct instantiated at the letter
`'a'`. -/
theorem claim10_witness :
    (['a'] <:+: lowercase) ∧
      ((event (mkGame (strL "")) ['a']).exit_code =
          ExitCode.DONE_WANTS_NEW ∧
        (event (mkGame (strL "")) ['a']).guesses = ∅) :=
  ⟨by decide, claim10_theorem.2.2.2 'a' (by decide)⟩

end Hangman
